import Mathlib

/-!
Shallow embedding of `scope.go` from the tally metrics library.

The only repository source file available is `scope.go`; its external
collaborators (the sanitizer, the metric primitives, the reporters, the
bucket types and the scope registry) are modelled at their interface
boundary, following the spec, with each such modelling noted in the doc
comment of the corresponding definition.

Go maps are modelled as insertion-ordered association lists with unique
keys (`lookupKey` is the Go map read, `mapInsert` the Go map write).
Where Go map *iteration* order matters (the `range` loops in
`scope.report`), the iteration order is passed explicitly as an argument
that theorems constrain to be a permutation of the map's entries, since
Go leaves map iteration order unspecified.

Externally observable side effects (reporter calls, flushes, the one-shot
quit-channel signal) are modelled as an explicit `Event` trace returned
alongside the new state.
-/

set_option maxRecDepth 4000

/-- Go map read: first (and, for unique-keyed lists, only) binding of `k`. -/
def lookupKey {α : Type} {β : Type} [DecidableEq α] (m : List (α × β)) (k : α) : Option β :=
  match m with
  | [] => none
  | p :: rest => if p.1 = k then some p.2 else lookupKey rest k

/-- Go map write: replace the binding of `k` if present, else append it. -/
def mapInsert {α : Type} {β : Type} [DecidableEq α] (m : List (α × β)) (k : α) (v : β) :
    List (α × β) :=
  match m with
  | [] => [(k, v)]
  | p :: rest => if p.1 = k then (k, v) :: rest else p :: mapInsert rest k v

/-- A Go `error` value (only its identity matters to the claims). -/
abbrev GoErr := String

/-- Modelled from the spec: the sanitizer is an external pure function mapping
raw name / tag-key / tag-value strings to validated strings; its construction
(`NewSanitizer` from `SanitizeOptions`) is not under `src/`, so a scope's
sanitizer is carried as the three string functions themselves. -/
structure Sanitizer where
  name : String → String
  key : String → String
  value : String → String

/-- `NewNoOpSanitizer`: the identity sanitizer used when no `SanitizeOptions`
are given. -/
def NewNoOpSanitizer : Sanitizer :=
  { name := fun s => s, key := fun s => s, value := fun s => s }

/-- Reporter capability flags (`Capabilities` interface: `Reporting`,
`Tagging`). Modelled from the spec: a reporter-advertised feature set. -/
structure Capabilities where
  reporting : Bool
  tagging : Bool
deriving DecidableEq, Repr

/-- `capabilitiesNone`: the no-capabilities constant returned when no reporter
is configured. -/
def capabilitiesNone : Capabilities :=
  { reporting := false, tagging := false }

/-- Modelled from the spec: a push-style `StatsReporter` at its interface
boundary — its advertised capabilities, whether its concrete type also
implements `io.Closer`, and the error its `Close` would return. -/
structure StatsReporter where
  capabilities : Capabilities
  hasCloser : Bool
  closeErr : Option GoErr
deriving DecidableEq, Repr

/-- Modelled from the spec: a `CachedStatsReporter` at its interface boundary
(allocation of cached handles is recorded in the event trace). -/
structure CachedStatsReporter where
  capabilities : Capabilities
  hasCloser : Bool
  closeErr : Option GoErr
deriving DecidableEq, Repr

/-- `BaseStatsReporter`: the active reporter stored by `newRootScope`, either
the push reporter or the cached reporter. -/
inductive BaseStatsReporter where
  | fromStats (r : StatsReporter)
  | fromCached (r : CachedStatsReporter)
deriving DecidableEq, Repr

/-- The capabilities advertised by the base reporter. -/
def BaseStatsReporter.capabilities : BaseStatsReporter → Capabilities
  | .fromStats r => r.capabilities
  | .fromCached r => r.capabilities

/-- The result of `closer.Close()` in `scope.Close`: the Go code type-asserts
the base reporter to `io.Closer`; if the assertion succeeds the closer's error
is returned unmodified, otherwise the assertion fails and `Close` returns nil. -/
def BaseStatsReporter.closeResult : BaseStatsReporter → Option GoErr
  | .fromStats r => if r.hasCloser then r.closeErr else none
  | .fromCached r => if r.hasCloser then r.closeErr else none

/-- The `Buckets` interface consumed by `scope.go`. `DurationBuckets` entries
are `time.Duration` (int64 nanoseconds, here `Int`); `ValueBuckets` entries
are float64 boundaries, modelled by their IEEE-754 bit patterns because the
code consumes them only through `math.Float64bits`; `other` stands for any
further implementation of the interface. Modelled from the spec: the concrete
bucket types are not under `src/`. -/
inductive Buckets where
  | duration (bs : List Int)
  | value (bs : List Nat)
  | other
deriving DecidableEq, Repr

/-- `Buckets.Len()`. The length of an unknown third implementation is not
determined by `src/`; it is modelled as 0 (no claim depends on it). -/
def Buckets.len : Buckets → Nat
  | .duration bs => bs.length
  | .value bs => bs.length
  | .other => 0

/-- `uint64(dur)`: reinterpret an int64 nanosecond count as a uint64. -/
def uint64OfInt (i : Int) : Nat :=
  (i % (2 ^ 64 : Int)).toNat

/-- `getBucketsIdentity`: uniquely identify a set of buckets by folding the
boundary words into the identity accumulator. The accumulator itself (package
`internal/identity`, not under `src/`) is modelled injectively as the sequence
of folded 64-bit words — an abstraction of the real 64-bit hash under which
two word sequences collide exactly when they are equal, while the real hash
collides at least then. The `else` branch performs the Go type assertion
`buckets.(ValueBuckets)`, which panics (`none`) on any other implementation. -/
def getBucketsIdentity : Buckets → Option (List Nat)
  | .duration bs => some (bs.map uint64OfInt)
  | .value bs => some bs
  | .other => none

/-- The histogram type discriminant. -/
inductive histogramType where
  | valueHistogramType
  | durationHistogramType
deriving DecidableEq, Repr

/-- `bucketStorage` (constructed by `newBucketStorage(htype, b, cached)`,
not under `src/`): the shared per-bucket state. `sid` models the Go pointer
identity of the storage allocation; the discriminant and boundaries it was
created with are recorded as `newBucketStorage` receives them. -/
structure bucketStorage where
  sid : Nat
  htype : histogramType
  buckets : Buckets
deriving DecidableEq, Repr

/-- A `*histogram` instance (`newHistogram(htype, name, tags, reporter,
storage)`, not under `src/`): `hid` models the instance's pointer identity,
and the instance references its shared storage. -/
structure histogram where
  hid : Nat
  htype : histogramType
  storage : bucketStorage
deriving DecidableEq, Repr

/-- `scopeStatus`: the `closed` flag and the one-shot quit channel (modelled
by whether `close(quit)` has happened). -/
structure scopeStatus where
  closed : Bool
  quitSignaled : Bool
deriving DecidableEq, Repr

/-- Externally observable effects: cached-handle allocations performed during
registration, reporter invocations performed during a reporting pass, flushes,
and the one-shot quit-channel signal in `Close`. -/
inductive Event where
  | allocateCounter (name : String) (tags : List (String × String))
  | allocateGauge (name : String) (tags : List (String × String))
  | allocateTimer (name : String) (tags : List (String × String))
  | allocateHistogram (name : String) (tags : List (String × String)) (b : Buckets)
  | reportCounter (name : String) (tags : List (String × String)) (cid : Nat)
  | reportGauge (name : String) (tags : List (String × String)) (gid : Nat)
  | reportHistogram (name : String) (tags : List (String × String)) (hid : Nat)
  | cachedReportCounter (cid : Nat)
  | cachedReportGauge (gid : Nat)
  | cachedReportHistogram (hid : Nat)
  | flushReporter
  | flushCachedReporter
  | signalQuit
deriving DecidableEq, Repr

/-- The `scope` struct. Counters, gauges and timers are identified by their
pointer identity, modelled as a `Nat` drawn from the allocation counter
`nextId` (model bookkeeping for "fresh pointer"). The per-kind mutexes and
the back-reference to the registry carry no sequential state and are elided;
`prefix` is a Lean keyword and is spelled `pfx`. -/
structure scope where
  separator : String
  pfx : String
  tags : List (String × String)
  reporter : Option StatsReporter
  cachedReporter : Option CachedStatsReporter
  baseReporter : Option BaseStatsReporter
  defaultBuckets : Buckets
  sanitizer : Sanitizer
  status : scopeStatus
  counters : List (String × Nat)
  countersSlice : List Nat
  gauges : List (String × Nat)
  gaugesSlice : List Nat
  histograms : List (String × histogram)
  histogramsSlice : List histogram
  timers : List (String × Nat)
  bucketCache : List (List Nat × bucketStorage)
  nextId : Nat

/-- `DefaultSeparator`. -/
def DefaultSeparator : String := "."

/-- `defaultScopeBuckets`: the default latency bucket ladder, in nanoseconds. -/
def defaultScopeBuckets : Buckets :=
  .duration [0, 10000000, 25000000, 50000000, 75000000, 100000000, 200000000,
             300000000, 400000000, 500000000, 600000000, 800000000,
             1000000000, 2000000000, 5000000000]

/-- `copyAndSanitizeMap` with an explicit sanitizer (the Go method runs before
the scope's own tags are set, so the helper is factored over the sanitizer). -/
def copyAndSanitizeWith (san : Sanitizer) (tags : List (String × String)) :
    List (String × String) :=
  tags.foldl (fun result p => mapInsert result (san.key p.1) (san.value p.2)) []

/-- `scope.copyAndSanitizeMap`. -/
def scope.copyAndSanitizeMap (s : scope) (tags : List (String × String)) :
    List (String × String) :=
  copyAndSanitizeWith s.sanitizer tags

/-- Configuration options for a root scope (`ScopeOptions`). The
`SanitizeOptions` field is modelled as the sanitizer it would construct (the
construction is external to `src/`). -/
structure ScopeOptions where
  tags : List (String × String) := []
  pfx : String := ""
  reporter : Option StatsReporter := none
  cachedReporter : Option CachedStatsReporter := none
  separator : String := ""
  defaultBuckets : Option Buckets := none
  sanitizeOptions : Option Sanitizer := none

/-- `newRootScope`. The background `reportLoop` goroutine started for
`interval > 0` is a concurrency construct and is not part of the sequential
state; `interval` is retained for signature fidelity. -/
def newRootScope (opts : ScopeOptions) (interval : Int) : scope :=
  let _ := interval
  let sanitizer := match opts.sanitizeOptions with
    | some o => o
    | none => NewNoOpSanitizer
  let separator := if opts.separator = "" then DefaultSeparator else opts.separator
  let baseReporter : Option BaseStatsReporter :=
    match opts.reporter with
    | some r => some (.fromStats r)
    | none =>
      match opts.cachedReporter with
      | some cr => some (.fromCached cr)
      | none => none
  let defaultBuckets := match opts.defaultBuckets with
    | none => defaultScopeBuckets
    | some b => if b.len < 1 then defaultScopeBuckets else b
  { separator := sanitizer.name separator
    pfx := sanitizer.name opts.pfx
    tags := copyAndSanitizeWith sanitizer opts.tags
    reporter := opts.reporter
    cachedReporter := opts.cachedReporter
    baseReporter := baseReporter
    defaultBuckets := defaultBuckets
    sanitizer := sanitizer
    status := { closed := false, quitSignaled := false }
    counters := []
    countersSlice := []
    gauges := []
    gaugesSlice := []
    histograms := []
    histogramsSlice := []
    timers := []
    bucketCache := []
    nextId := 0 }

/-- `scope.fullyQualifiedName`: `name` unchanged when the prefix is empty,
else `prefix + separator + name`; no further sanitization. -/
def scope.fullyQualifiedName (s : scope) (name : String) : String :=
  if s.pfx.length = 0 then name else s.pfx ++ s.separator ++ name

/-- `scope.Capabilities`. -/
def scope.Capabilities (s : scope) : Capabilities :=
  match s.baseReporter with
  | none => capabilitiesNone
  | some br => br.capabilities

/-- `scope.Counter`. The Go fast path (read-locked lookup) and the slow-path
re-check collapse to one lookup in the sequential model; a miss allocates a
cached handle when a cached reporter is configured, then inserts the new
instance into both the lookup map and the insertion-ordered slice. -/
def scope.Counter (s : scope) (name : String) : Nat × scope × List Event :=
  let n := s.sanitizer.name name
  match lookupKey s.counters n with
  | some c => (c, s, [])
  | none =>
    let evs := match s.cachedReporter with
      | some _ => [Event.allocateCounter (s.fullyQualifiedName n) s.tags]
      | none => []
    let c := s.nextId
    (c,
     { s with counters := s.counters ++ [(n, c)]
              countersSlice := s.countersSlice ++ [c]
              nextId := s.nextId + 1 },
     evs)

/-- `scope.Gauge` (same double-checked registration protocol as `Counter`). -/
def scope.Gauge (s : scope) (name : String) : Nat × scope × List Event :=
  let n := s.sanitizer.name name
  match lookupKey s.gauges n with
  | some g => (g, s, [])
  | none =>
    let evs := match s.cachedReporter with
      | some _ => [Event.allocateGauge (s.fullyQualifiedName n) s.tags]
      | none => []
    let g := s.nextId
    (g,
     { s with gauges := s.gauges ++ [(n, g)]
              gaugesSlice := s.gaugesSlice ++ [g]
              nextId := s.nextId + 1 },
     evs)

/-- `scope.Timer`: inserts only into the timers map; there is deliberately no
timers slice, as timers report immediately and are never swept. -/
def scope.Timer (s : scope) (name : String) : Nat × scope × List Event :=
  let n := s.sanitizer.name name
  match lookupKey s.timers n with
  | some t => (t, s, [])
  | none =>
    let evs := match s.cachedReporter with
      | some _ => [Event.allocateTimer (s.fullyQualifiedName n) s.tags]
      | none => []
    let t := s.nextId
    (t,
     { s with timers := s.timers ++ [(n, t)]
              nextId := s.nextId + 1 },
     evs)

/-- `scope.Histogram`. A nil bucket argument (`none`) selects the scope's
default buckets; the discriminant defaults to `value` unless the buckets are
a `DurationBuckets`. The bucket-cache key is `getBucketsIdentity b`; a cache
miss allocates fresh storage and caches it. `none` as overall result models
the panic of the type assertion inside `getBucketsIdentity` for a bucket set
that is neither duration- nor value-typed (the panic fires after the cached
handle allocation but before any insertion, so no state change survives it). -/
def scope.Histogram (s : scope) (name : String) (b? : Option Buckets) :
    Option (histogram × scope × List Event) :=
  let n := s.sanitizer.name name
  match lookupKey s.histograms n with
  | some h => some (h, s, [])
  | none =>
    let b := match b? with
      | none => s.defaultBuckets
      | some b => b
    let htype := match b with
      | .duration _ => histogramType.durationHistogramType
      | _ => histogramType.valueHistogramType
    let evs := match s.cachedReporter with
      | some _ => [Event.allocateHistogram (s.fullyQualifiedName n) s.tags b]
      | none => []
    match getBucketsIdentity b with
    | none => none
    | some bid =>
      let found := lookupKey s.bucketCache bid
      let storage := match found with
        | some st => st
        | none => { sid := s.nextId, htype := htype, buckets := b }
      let cache := match found with
        | some _ => s.bucketCache
        | none => s.bucketCache ++ [(bid, storage)]
      let nid := match found with
        | some _ => s.nextId
        | none => s.nextId + 1
      let h : histogram := { hid := nid, htype := htype, storage := storage }
      some (h,
        { s with histograms := s.histograms ++ [(n, h)]
                 histogramsSlice := s.histogramsSlice ++ [h]
                 bucketCache := cache
                 nextId := nid + 1 },
        evs)

/-- `mergeRightTags`: right-hand tags override left-hand tags on collision;
the Go early returns for a nil/empty side are kept, and the general case
builds a fresh map by inserting the left entries and then the right entries. -/
def mergeRightTags (tagsLeft tagsRight : List (String × String)) :
    List (String × String) :=
  if tagsRight.length = 0 then tagsLeft
  else if tagsLeft.length = 0 then tagsRight
  else
    tagsRight.foldl (fun result p => mapInsert result p.1 p.2)
      (tagsLeft.foldl (fun result p => mapInsert result p.1 p.2) [])

/-- Modelled from the spec: `scopeRegistry.Subscope` (not under `src/`)
constructs — or returns the existing — child scope with the given prefix,
inheriting the parent's reporters, separator, sanitizer and default buckets,
its tag set being the parent's tags merged with the overrides (child wins),
and fresh empty metric containers. -/
def scope.subscope (s : scope) (pfx : String) (tags : Option (List (String × String))) :
    scope :=
  { s with pfx := pfx
           tags := match tags with
             | none => s.tags
             | some t => mergeRightTags s.tags t
           counters := []
           countersSlice := []
           gauges := []
           gaugesSlice := []
           histograms := []
           histogramsSlice := []
           timers := []
           bucketCache := []
           nextId := 0 }

/-- `scope.SubScope`: sanitizes the prefix segment, fully qualifies it against
this scope's prefix, and requests the subscope (with nil tag overrides). -/
def scope.SubScope (s : scope) (p : String) : scope :=
  s.subscope (s.fullyQualifiedName (s.sanitizer.name p)) none

/-- `scope.Tagged`: sanitizes and copies the tags and requests a subscope with
this scope's prefix. -/
def scope.Tagged (s : scope) (tags : List (String × String)) : scope :=
  s.subscope s.pfx (some (s.copyAndSanitizeMap tags))

/-- The iteration order Go's `range` uses over the three metric maps in
`scope.report`; Go leaves it unspecified, so it is an explicit argument,
constrained by `MapOrders.valid` to be a permutation of each map's entries. -/
structure MapOrders where
  cOrd : List (String × Nat)
  gOrd : List (String × Nat)
  hOrd : List (String × histogram)

/-- The given orders enumerate exactly the scope's map entries. -/
def MapOrders.valid (o : MapOrders) (s : scope) : Prop :=
  List.Perm o.cOrd s.counters ∧ List.Perm o.gOrd s.gauges ∧
    List.Perm o.hOrd s.histograms

/-- `scope.report(r)`: ranges over the counters, gauges and histograms maps
(in Go map order), invoking each instance's `report` with the fully qualified
name and the scope's tags; nothing is done for timers, which report directly
at observation time. -/
def scope.report (s : scope) (ords : MapOrders) : List Event :=
  ords.cOrd.map (fun p => Event.reportCounter (s.fullyQualifiedName p.1) s.tags p.2)
    ++ ords.gOrd.map (fun p => Event.reportGauge (s.fullyQualifiedName p.1) s.tags p.2)
    ++ ords.hOrd.map (fun p => Event.reportHistogram (s.fullyQualifiedName p.1) s.tags p.2.hid)

/-- `scope.cachedReport`: sweeps the insertion-ordered slices, invoking each
instance's `cachedReport` (the cached handles already carry name and tags);
nothing is done for timers. -/
def scope.cachedReport (s : scope) : List Event :=
  s.countersSlice.map Event.cachedReportCounter
    ++ s.gaugesSlice.map Event.cachedReportGauge
    ++ s.histogramsSlice.map (fun h => Event.cachedReportHistogram h.hid)

/-- `scope.reportRegistryWithLock`: when a push reporter is configured the
registry fans out `report` and the push reporter is flushed; otherwise, when
a cached reporter is configured, the registry fans out `cachedReport` and the
cached reporter is flushed. The registry (not under `src/`) is modelled from
the spec: its `Report`/`CachedReport` invoke `report`/`cachedReport` on every
registered scope, which for a root scope with no subscopes is the root alone. -/
def scope.reportRegistryWithLock (s : scope) (ords : MapOrders) : List Event :=
  match s.reporter with
  | some _ => s.report ords ++ [Event.flushReporter]
  | none =>
    match s.cachedReporter with
    | some _ => s.cachedReport ++ [Event.flushCachedReporter]
    | none => []

/-- `scope.reportLoopRun`: under the status read lock, drop the tick if the
scope is closed, otherwise perform one report-and-flush. -/
def scope.reportLoopRun (s : scope) (ords : MapOrders) : List Event :=
  if s.status.closed then [] else s.reportRegistryWithLock ords

/-- `scope.Close`: under the status write lock, a second call returns nil at
once; the first call marks the scope closed, closes the one-shot quit channel,
performs one final report-and-flush, and returns the base reporter's closer
result (nil when the base reporter is absent or is not an `io.Closer`). -/
def scope.Close (s : scope) (ords : MapOrders) :
    Option GoErr × scope × List Event :=
  if s.status.closed then (none, s, [])
  else
    let s' := { s with status := { closed := true, quitSignaled := true } }
    let evs := Event.signalQuit :: s'.reportRegistryWithLock ords
    let err := match s.baseReporter with
      | some br => br.closeResult
      | none => none
    (err, s', evs)

/-- The registration invariant of the claim: per kind, at most one instance
per sanitized name (the lookup map's keys are unique) and, for counters,
gauges and histograms, the lookup map and the insertion-ordered slice list
the same instances. -/
def regInvariant (s : scope) : Prop :=
  (s.counters.map Prod.fst).Nodup ∧ s.countersSlice = s.counters.map Prod.snd ∧
    (s.gauges.map Prod.fst).Nodup ∧ s.gaugesSlice = s.gauges.map Prod.snd ∧
    (s.histograms.map Prod.fst).Nodup ∧
    s.histogramsSlice = s.histograms.map Prod.snd ∧
    (s.timers.map Prod.fst).Nodup

instance (s : scope) : Decidable (regInvariant s) := by
  unfold regInvariant; infer_instance

/-- One registration call, of any kind. -/
inductive RegCall where
  | counter (name : String)
  | gauge (name : String)
  | timer (name : String)
  | histogram (name : String) (b : Option Buckets)

/-- The state reached by a fallible histogram registration (a panic leaves the
scope's state unchanged: the process dies before any insertion). -/
def histState (s : scope) (r : Option (histogram × scope × List Event)) : scope :=
  match r with
  | some (_, s', _) => s'
  | none => s

/-- The instance returned by a fallible histogram registration. -/
def histResult (r : Option (histogram × scope × List Event)) : Option histogram :=
  r.map (fun p => p.1)

/-- Apply one registration call to the scope state. -/
def applyCall (s : scope) : RegCall → scope
  | .counter n => (s.Counter n).2.1
  | .gauge n => (s.Gauge n).2.1
  | .timer n => (s.Timer n).2.1
  | .histogram n b => histState s (s.Histogram n b)

/-- Apply a sequence of registration calls. -/
def applyCalls (s : scope) (calls : List RegCall) : scope :=
  calls.foldl applyCall s

/-- Events produced by the map sweep of `scope.report`. -/
def Event.isMapSweep : Event → Bool
  | .reportCounter _ _ _ => true
  | .reportGauge _ _ _ => true
  | .reportHistogram _ _ _ => true
  | _ => false

/-- Events produced by the slice sweep of `scope.cachedReport`. -/
def Event.isSliceSweep : Event → Bool
  | .cachedReportCounter _ => true
  | .cachedReportGauge _ => true
  | .cachedReportHistogram _ => true
  | _ => false

/-- The number of sink flushes in a trace. -/
def flushCount (evs : List Event) : Nat :=
  evs.count Event.flushReporter + evs.count Event.flushCachedReporter

/-- The reporting sweep in registration order: one report invocation per
registered counter, gauge and histogram, in insertion order, with fully
qualified names and the scope's tags, and none for timers. -/
def reportCanonical (s : scope) : List Event :=
  s.counters.map (fun p => Event.reportCounter (s.fullyQualifiedName p.1) s.tags p.2)
    ++ s.gauges.map (fun p => Event.reportGauge (s.fullyQualifiedName p.1) s.tags p.2)
    ++ s.histograms.map
        (fun p => Event.reportHistogram (s.fullyQualifiedName p.1) s.tags p.2.hid)

/-- The cached reporting sweep in registration order, derived from the maps. -/
def cachedReportCanonical (s : scope) : List Event :=
  s.counters.map (fun p => Event.cachedReportCounter p.2)
    ++ s.gauges.map (fun p => Event.cachedReportGauge p.2)
    ++ s.histograms.map (fun p => Event.cachedReportHistogram p.2.hid)

/-- The identity map-iteration order: each map read off in insertion order. -/
def exOrders (s : scope) : MapOrders :=
  { cOrd := s.counters, gOrd := s.gauges, hOrd := s.histograms }

/-- A concrete push reporter whose closer fails with a recognizable error. -/
def exStatsReporter : StatsReporter :=
  { capabilities := { reporting := true, tagging := true }
    hasCloser := true
    closeErr := some "close failed" }

/-- A concrete cached reporter with no closer. -/
def exCachedReporter : CachedStatsReporter :=
  { capabilities := { reporting := true, tagging := false }
    hasCloser := false
    closeErr := none }

/-- A root scope with no reporters (the `NewTestScope` configuration). -/
def exScopePlain : scope := newRootScope {} 0

/-- A root scope configured with both a push and a cached reporter. -/
def exScopeBoth : scope :=
  newRootScope
    { reporter := some exStatsReporter, cachedReporter := some exCachedReporter } 0

/-- A root scope configured with only a cached reporter. -/
def exScopeCachedOnly : scope :=
  newRootScope { cachedReporter := some exCachedReporter } 0

/-- The plain scope after registering counter "req". -/
def c1scope : scope := ((exScopePlain.Counter "req").2.1)

/-- The plain scope after registering counters "a" then "b". -/
def c5scope : scope := ((exScopePlain.Counter "a").2.1.Counter "b").2.1

/-- A legal Go map iteration order for `c5scope` that visits the two counters
in the reverse of their registration order. -/
def c5ords : MapOrders :=
  { cOrd := [("b", 1), ("a", 0)], gOrd := [], hOrd := [] }

/-- The state after registering histogram "h1" with duration boundaries
`{1ns}` on the plain scope. -/
def c4scope1 : scope :=
  histState exScopePlain (exScopePlain.Histogram "h1" (some (Buckets.duration [1])))

/-- A root scope with prefix "svc" and separator ".". -/
def c7root : scope := newRootScope { pfx := "svc", separator := "." } 0

theorem nodup_append_singleton {α : Type} {l : List α} {a : α} (h : l.Nodup)
    (ha : a ∉ l) : (l ++ [a]).Nodup := by
  rw [← List.concat_eq_append]
  exact List.Nodup.concat ha h

theorem lookupKey_eq_none_iff {α β : Type} [DecidableEq α] (m : List (α × β)) (k : α) :
    lookupKey m k = none ↔ k ∉ m.map Prod.fst := by
  induction m with
  | nil => simp [lookupKey]
  | cons p rest ih =>
    by_cases hp : p.1 = k
    · simp [lookupKey, hp]
    · simp only [lookupKey, if_neg hp, List.map_cons, List.mem_cons, ih]
      constructor
      · rintro h (h1 | h2)
        · exact hp h1.symm
        · exact h h2
      · intro h h2
        exact h (Or.inr h2)

theorem lookupKey_isSome_iff {α β : Type} [DecidableEq α] (m : List (α × β)) (k : α) :
    (lookupKey m k).isSome = true ↔ k ∈ m.map Prod.fst := by
  constructor
  · intro hs
    by_contra hmem
    rw [(lookupKey_eq_none_iff m k).mpr hmem] at hs
    simp at hs
  · intro hmem
    cases h : lookupKey m k with
    | none => exact absurd hmem ((lookupKey_eq_none_iff m k).mp h)
    | some v => simp

theorem regInvariant_Counter (s : scope) (name : String) (h : regInvariant s) :
    regInvariant (s.Counter name).2.1 := by
  obtain ⟨h1, h2, h3, h4, h5, h6, h7⟩ := h
  unfold scope.Counter
  dsimp only
  split
  · exact ⟨h1, h2, h3, h4, h5, h6, h7⟩
  case _ heq =>
    have hn : s.sanitizer.name name ∉ s.counters.map Prod.fst :=
      (lookupKey_eq_none_iff _ _).mp heq
    refine ⟨?_, ?_, h3, h4, h5, h6, h7⟩
    · rw [List.map_append]
      exact nodup_append_singleton h1 hn
    · rw [List.map_append, h2]
      rfl

theorem regInvariant_Gauge (s : scope) (name : String) (h : regInvariant s) :
    regInvariant (s.Gauge name).2.1 := by
  obtain ⟨h1, h2, h3, h4, h5, h6, h7⟩ := h
  unfold scope.Gauge
  dsimp only
  split
  · exact ⟨h1, h2, h3, h4, h5, h6, h7⟩
  case _ heq =>
    have hn : s.sanitizer.name name ∉ s.gauges.map Prod.fst :=
      (lookupKey_eq_none_iff _ _).mp heq
    refine ⟨h1, h2, ?_, ?_, h5, h6, h7⟩
    · rw [List.map_append]
      exact nodup_append_singleton h3 hn
    · rw [List.map_append, h4]
      rfl

theorem regInvariant_Timer (s : scope) (name : String) (h : regInvariant s) :
    regInvariant (s.Timer name).2.1 := by
  obtain ⟨h1, h2, h3, h4, h5, h6, h7⟩ := h
  unfold scope.Timer
  dsimp only
  split
  · exact ⟨h1, h2, h3, h4, h5, h6, h7⟩
  case _ heq =>
    have hn : s.sanitizer.name name ∉ s.timers.map Prod.fst :=
      (lookupKey_eq_none_iff _ _).mp heq
    refine ⟨h1, h2, h3, h4, h5, h6, ?_⟩
    rw [List.map_append]
    exact nodup_append_singleton h7 hn

theorem regInvariant_Histogram (s : scope) (name : String) (b? : Option Buckets)
    (h : regInvariant s) : regInvariant (histState s (s.Histogram name b?)) := by
  obtain ⟨h1, h2, h3, h4, h5, h6, h7⟩ := h
  unfold scope.Histogram
  dsimp only
  split
  · exact ⟨h1, h2, h3, h4, h5, h6, h7⟩
  case _ heq =>
    have hn : s.sanitizer.name name ∉ s.histograms.map Prod.fst :=
      (lookupKey_eq_none_iff _ _).mp heq
    split
    · exact ⟨h1, h2, h3, h4, h5, h6, h7⟩
    · dsimp only [histState]
      refine ⟨h1, h2, h3, h4, ?_, ?_, h7⟩
      · rw [List.map_append]
        exact nodup_append_singleton h5 hn
      · rw [List.map_append, h6]
        rfl

theorem regInvariant_applyCall (s : scope) (c : RegCall) (h : regInvariant s) :
    regInvariant (applyCall s c) := by
  cases c with
  | counter n => exact regInvariant_Counter s n h
  | gauge n => exact regInvariant_Gauge s n h
  | timer n => exact regInvariant_Timer s n h
  | histogram n b => exact regInvariant_Histogram s n b h

theorem regInvariant_applyCalls (calls : List RegCall) (s : scope)
    (h : regInvariant s) : regInvariant (applyCalls s calls) := by
  induction calls generalizing s with
  | nil => exact h
  | cons c rest ih => exact ih _ (regInvariant_applyCall s c h)

theorem regInvariant_newRootScope (opts : ScopeOptions) (interval : Int) :
    regInvariant (newRootScope opts interval) := by
  refine ⟨?_, ?_, ?_, ?_, ?_, ?_, ?_⟩ <;> simp [newRootScope]

/-- C1: for every scope and metric kind, registration via Counter / Gauge /
Timer / Histogram preserves the at-most-one-instance-per-sanitized-name
invariant: starting from any root scope, after any sequence of registration
calls each kind's lookup map has unique sanitized-name keys and (for
counters, gauges and histograms) lists the same instances as the
insertion-ordered slice; and a call whose name sanitizes to an
already-registered name returns the existing instance with the scope state
unchanged and an empty effect trace (no allocation, no insertion). -/
theorem c1_registration_at_most_one_instance :
    (∀ (opts : ScopeOptions) (interval : Int) (calls : List RegCall),
       regInvariant (applyCalls (newRootScope opts interval) calls)) ∧
    (∀ (s : scope) (name : String) (c : Nat),
       lookupKey s.counters (s.sanitizer.name name) = some c →
       s.Counter name = (c, s, [])) ∧
    (∀ (s : scope) (name : String) (g : Nat),
       lookupKey s.gauges (s.sanitizer.name name) = some g →
       s.Gauge name = (g, s, [])) ∧
    (∀ (s : scope) (name : String) (t : Nat),
       lookupKey s.timers (s.sanitizer.name name) = some t →
       s.Timer name = (t, s, [])) ∧
    (∀ (s : scope) (name : String) (b? : Option Buckets) (h : histogram),
       lookupKey s.histograms (s.sanitizer.name name) = some h →
       s.Histogram name b? = some (h, s, [])) := by
  refine ⟨?_, ?_, ?_, ?_, ?_⟩
  · intro opts interval calls
    exact regInvariant_applyCalls calls _ (regInvariant_newRootScope opts interval)
  · intro s name c hl
    unfold scope.Counter
    dsimp only
    rw [hl]
  · intro s name g hl
    unfold scope.Gauge
    dsimp only
    rw [hl]
  · intro s name t hl
    unfold scope.Timer
    dsimp only
    rw [hl]
  · intro s name b? h hl
    unfold scope.Histogram
    dsimp only
    rw [hl]

/-- Witness for C1: the invariant holds after registering counter "req" on a
fresh test scope, and re-registering "req" returns instance 0 with the state
unchanged and no effects. -/
theorem c1_registration_at_most_one_instance_witness :
    regInvariant (applyCalls (newRootScope {} 0) [RegCall.counter "req"]) ∧
    lookupKey c1scope.counters (c1scope.sanitizer.name "req") = some 0 ∧
    c1scope.Counter "req" = (0, c1scope, []) := by
  have hl : lookupKey c1scope.counters (c1scope.sanitizer.name "req") = some 0 := by
    rfl
  exact ⟨c1_registration_at_most_one_instance.1 {} 0 [RegCall.counter "req"], hl,
    c1_registration_at_most_one_instance.2.1 c1scope "req" 0 hl⟩

theorem mem_report_isMapSweep (s : scope) (ords : MapOrders) (e : Event)
    (he : e ∈ s.report ords) : e.isMapSweep = true := by
  simp only [scope.report, List.mem_append, List.mem_map] at he
  rcases he with (⟨p, _, rfl⟩ | ⟨p, _, rfl⟩) | ⟨p, _, rfl⟩ <;> rfl

theorem mem_cachedReport_isSliceSweep (s : scope) (e : Event)
    (he : e ∈ s.cachedReport) : e.isSliceSweep = true := by
  simp only [scope.cachedReport, List.mem_append, List.mem_map] at he
  rcases he with (⟨x, _, rfl⟩ | ⟨x, _, rfl⟩) | ⟨x, _, rfl⟩ <;> rfl

theorem count_report_eq_zero (s : scope) (ords : MapOrders) (e : Event)
    (he : e.isMapSweep = false) : (s.report ords).count e = 0 := by
  refine List.count_eq_zero.mpr (fun hm => ?_)
  rw [mem_report_isMapSweep s ords e hm] at he
  cases he

theorem count_cachedReport_eq_zero (s : scope) (e : Event)
    (he : e.isSliceSweep = false) : s.cachedReport.count e = 0 := by
  refine List.count_eq_zero.mpr (fun hm => ?_)
  rw [mem_cachedReport_isSliceSweep s e hm] at he
  cases he

theorem flushCount_report (s : scope) (ords : MapOrders) :
    flushCount (s.report ords) = 0 := by
  unfold flushCount
  rw [count_report_eq_zero s ords Event.flushReporter rfl,
    count_report_eq_zero s ords Event.flushCachedReporter rfl]

theorem flushCount_cachedReport (s : scope) : flushCount s.cachedReport = 0 := by
  unfold flushCount
  rw [count_cachedReport_eq_zero s Event.flushReporter rfl,
    count_cachedReport_eq_zero s Event.flushCachedReporter rfl]

theorem flushCount_reportRegistryWithLock (s : scope) (ords : MapOrders) :
    flushCount (s.reportRegistryWithLock ords) =
      (if s.reporter.isSome || s.cachedReporter.isSome then 1 else 0) := by
  unfold scope.reportRegistryWithLock
  cases hr : s.reporter with
  | some r =>
    simp only [flushCount, List.count_append]
    rw [count_report_eq_zero s ords Event.flushReporter rfl,
      count_report_eq_zero s ords Event.flushCachedReporter rfl]
    simp
  | none =>
    cases hc : s.cachedReporter with
    | some cr =>
      simp only [flushCount, List.count_append]
      rw [count_cachedReport_eq_zero s Event.flushReporter rfl,
        count_cachedReport_eq_zero s Event.flushCachedReporter rfl]
      simp
    | none => simp [flushCount]

theorem count_signalQuit_reportRegistryWithLock (s : scope) (ords : MapOrders) :
    (s.reportRegistryWithLock ords).count Event.signalQuit = 0 := by
  unfold scope.reportRegistryWithLock
  cases hr : s.reporter with
  | some r =>
    rw [List.count_append, count_report_eq_zero s ords Event.signalQuit rfl]
    rfl
  | none =>
    cases hc : s.cachedReporter with
    | some cr =>
      rw [List.count_append, count_cachedReport_eq_zero s Event.signalQuit rfl]
      rfl
    | none => rfl

/-- C3: once the status's closed flag is true, a reporting tick does nothing:
`reportLoopRun` returns with an empty effect trace — no registry fan-out, no
reporter invocation, no flush. -/
theorem c3_no_report_after_close (s : scope) (ords : MapOrders)
    (h : s.status.closed = true) : s.reportLoopRun ords = [] := by
  unfold scope.reportLoopRun
  simp [h]

/-- Witness for C3: a tick after closing a live scope reports nothing. -/
theorem c3_no_report_after_close_witness :
    ((exScopeBoth.Close (exOrders exScopeBoth)).2.1).reportLoopRun
      (exOrders exScopeBoth) = [] :=
  c3_no_report_after_close _ _ (by rfl)

/-- C6: a histogram whose bucket set is neither a duration sequence nor a
value sequence is rejected deterministically at construction: the type
assertion in `getBucketsIdentity` panics (`none`), and no histogram is
inserted — the call does not silently default the histogram to either kind. -/
theorem c6_histogram_rejects_foreign_buckets (s : scope) (name : String)
    (h : lookupKey s.histograms (s.sanitizer.name name) = none) :
    s.Histogram name (some Buckets.other) = none := by
  unfold scope.Histogram
  dsimp only
  rw [h]
  rfl

/-- Witness for C6: registering a fresh histogram with a foreign bucket
implementation on a fresh test scope panics instead of defaulting. -/
theorem c6_histogram_rejects_foreign_buckets_witness :
    exScopePlain.Histogram "weird" (some Buckets.other) = none :=
  c6_histogram_rejects_foreign_buckets exScopePlain "weird" (by rfl)

theorem close_reduction (s : scope) (ords : MapOrders)
    (h : s.status.closed = false) :
    s.Close ords =
      ((match s.baseReporter with
         | some br => br.closeResult
         | none => none),
       { s with status := { closed := true, quitSignaled := true } },
       Event.signalQuit ::
         scope.reportRegistryWithLock
           { s with status := { closed := true, quitSignaled := true } } ords) := by
  unfold scope.Close
  simp [h]

/-- C2: Close is idempotent. The first call on an open scope flips `closed`
to true, signals the one-shot quit channel exactly once, performs exactly one
final report-and-flush (one flush when any reporter is configured, none
otherwise), and returns the base reporter's closer result; any subsequent
Close returns nil with no effects and leaves the state unchanged. -/
theorem c2_close_idempotent (s : scope) (ords ords2 : MapOrders)
    (h : s.status.closed = false) :
    (s.Close ords).2.1.status.closed = true ∧
    (s.Close ords).2.1.status.quitSignaled = true ∧
    (s.Close ords).2.2.count Event.signalQuit = 1 ∧
    (s.Close ords).2.2 =
      Event.signalQuit :: (s.Close ords).2.1.reportRegistryWithLock ords ∧
    flushCount (s.Close ords).2.2 =
      (if s.reporter.isSome || s.cachedReporter.isSome then 1 else 0) ∧
    (s.Close ords).1 = (match s.baseReporter with
      | some br => br.closeResult
      | none => none) ∧
    (s.Close ords).2.1.Close ords2 = (none, (s.Close ords).2.1, []) := by
  rw [close_reduction s ords h]
  refine ⟨rfl, rfl, ?_, rfl, ?_, rfl, ?_⟩
  · dsimp only
    rw [List.count_cons_self, count_signalQuit_reportRegistryWithLock]
  · dsimp only
    unfold flushCount
    rw [List.count_cons_of_ne (by simp), List.count_cons_of_ne (by simp)]
    exact flushCount_reportRegistryWithLock _ ords
  · dsimp only
    unfold scope.Close
    rfl

/-- Witness for C2 on a concrete open scope with both reporters: the first
Close closes and signals once, flushes once, returns the closer's error, and
a second Close is a no-op returning nil. -/
theorem c2_close_idempotent_witness :
    (exScopeBoth.Close (exOrders exScopeBoth)).2.1.status.closed = true ∧
    (exScopeBoth.Close (exOrders exScopeBoth)).2.2.count Event.signalQuit = 1 ∧
    flushCount (exScopeBoth.Close (exOrders exScopeBoth)).2.2 = 1 ∧
    (exScopeBoth.Close (exOrders exScopeBoth)).1 = some "close failed" ∧
    (exScopeBoth.Close (exOrders exScopeBoth)).2.1.Close (exOrders exScopeBoth) =
      (none, (exScopeBoth.Close (exOrders exScopeBoth)).2.1, []) := by
  have h := c2_close_idempotent exScopeBoth (exOrders exScopeBoth)
    (exOrders exScopeBoth) rfl
  refine ⟨h.1, h.2.2.1, ?_, ?_, h.2.2.2.2.2.2⟩
  · rw [h.2.2.2.2.1]
    rfl
  · rw [h.2.2.2.2.2.1]
    rfl

/-- C9: Close is the only fallible operation; its result is exactly the base
reporter's closer error, propagated unmodified; it is nil on a repeat Close,
nil when the base reporter exposes no closer, and nil when no reporter is
configured at all (in which case `newRootScope` stores no base reporter). -/
theorem c9_close_error_propagation (s : scope) (ords : MapOrders) :
    (s.status.closed = true → (s.Close ords).1 = none) ∧
    (s.status.closed = false →
      (s.Close ords).1 = (match s.baseReporter with
        | some br => br.closeResult
        | none => none)) ∧
    (s.baseReporter = none → (s.Close ords).1 = none) ∧
    (∀ r : StatsReporter, s.baseReporter = some (.fromStats r) →
       r.hasCloser = false → (s.Close ords).1 = none) ∧
    (∀ cr : CachedStatsReporter, s.baseReporter = some (.fromCached cr) →
       cr.hasCloser = false → (s.Close ords).1 = none) ∧
    (∀ (opts : ScopeOptions) (i : Int), opts.reporter = none →
       opts.cachedReporter = none → (newRootScope opts i).baseReporter = none) := by
  refine ⟨?_, ?_, ?_, ?_, ?_, ?_⟩
  · intro h
    unfold scope.Close
    simp [h]
  · intro h
    rw [close_reduction s ords h]
  · intro hb
    cases hcl : s.status.closed with
    | true =>
      unfold scope.Close
      simp [hcl]
    | false =>
      rw [close_reduction s ords hcl, hb]
  · intro r hb hc
    cases hcl : s.status.closed with
    | true =>
      unfold scope.Close
      simp [hcl]
    | false =>
      rw [close_reduction s ords hcl, hb]
      simp [BaseStatsReporter.closeResult, hc]
  · intro cr hb hc
    cases hcl : s.status.closed with
    | true =>
      unfold scope.Close
      simp [hcl]
    | false =>
      rw [close_reduction s ords hcl, hb]
      simp [BaseStatsReporter.closeResult, hc]
  · intro opts i hr hc
    simp [newRootScope, hr, hc]

/-- Witness for C9: the closer's error "close failed" is propagated unmodified
from the push reporter, and a cached-only scope whose reporter has no closer
yields nil from Close. -/
theorem c9_close_error_propagation_witness :
    (exScopeBoth.Close (exOrders exScopeBoth)).1 = some "close failed" ∧
    (exScopeCachedOnly.Close (exOrders exScopeCachedOnly)).1 = none := by
  constructor
  · rw [(c9_close_error_propagation exScopeBoth (exOrders exScopeBoth)).2.1 rfl]
    rfl
  · exact (c9_close_error_propagation exScopeCachedOnly
      (exOrders exScopeCachedOnly)).2.2.2.2.1 exCachedReporter rfl rfl

theorem isMapSweep_isSliceSweep_false (e : Event) (h : e.isMapSweep = true) :
    e.isSliceSweep = false := by
  cases e <;> first | rfl | cases h

/-- C10: when both a push Reporter and a CachedReporter are configured,
`newRootScope` stores the push reporter as the base reporter, so
`Capabilities` reflects the push reporter; every reporting pass —
`reportRegistryWithLock`, a live tick via `reportLoopRun`, and the final
report inside `Close` — goes through `report` plus a push-reporter flush and
never through the cached-report path; yet registering a fresh counter still
allocates a cached handle from the CachedReporter. -/
theorem c10_push_reporter_drives (opts : ScopeOptions) (i : Int)
    (r : StatsReporter) (cr : CachedStatsReporter) (ords : MapOrders)
    (hr : opts.reporter = some r) (hc : opts.cachedReporter = some cr) :
    (newRootScope opts i).baseReporter = some (.fromStats r) ∧
    (newRootScope opts i).Capabilities = r.capabilities ∧
    (newRootScope opts i).reportRegistryWithLock ords =
      (newRootScope opts i).report ords ++ [Event.flushReporter] ∧
    Event.flushCachedReporter ∉ (newRootScope opts i).reportRegistryWithLock ords ∧
    (∀ e ∈ (newRootScope opts i).reportRegistryWithLock ords,
       e.isSliceSweep = false) ∧
    (newRootScope opts i).reportLoopRun ords =
      (newRootScope opts i).report ords ++ [Event.flushReporter] ∧
    ((newRootScope opts i).Close ords).2.2 =
      Event.signalQuit ::
        (((newRootScope opts i).Close ords).2.1.report ords ++
          [Event.flushReporter]) ∧
    (∀ name : String,
       lookupKey (newRootScope opts i).counters
         ((newRootScope opts i).sanitizer.name name) = none →
       ((newRootScope opts i).Counter name).2.2 =
         [Event.allocateCounter
           ((newRootScope opts i).fullyQualifiedName
             ((newRootScope opts i).sanitizer.name name))
           (newRootScope opts i).tags]) := by
  have hrep : (newRootScope opts i).reporter = some r := by
    simp [newRootScope, hr]
  have hcache : (newRootScope opts i).cachedReporter = some cr := by
    simp [newRootScope, hc]
  have hbase : (newRootScope opts i).baseReporter = some (.fromStats r) := by
    simp [newRootScope, hr]
  have hclosed : (newRootScope opts i).status.closed = false := by
    simp [newRootScope]
  have hrrwl : (newRootScope opts i).reportRegistryWithLock ords =
      (newRootScope opts i).report ords ++ [Event.flushReporter] := by
    unfold scope.reportRegistryWithLock
    rw [hrep]
  refine ⟨hbase, ?_, hrrwl, ?_, ?_, ?_, ?_, ?_⟩
  · unfold scope.Capabilities
    rw [hbase]
    rfl
  · rw [hrrwl]
    intro hmem
    rcases List.mem_append.mp hmem with h1 | h2
    · cases mem_report_isMapSweep _ ords _ h1
    · simp at h2
  · intro e he
    rw [hrrwl] at he
    rcases List.mem_append.mp he with h1 | h2
    · exact isMapSweep_isSliceSweep_false e (mem_report_isMapSweep _ ords _ h1)
    · simp at h2
      rw [h2]
      rfl
  · unfold scope.reportLoopRun
    rw [hclosed]
    simpa using hrrwl
  · rw [close_reduction _ ords hclosed]
    dsimp only
    unfold scope.reportRegistryWithLock
    rw [show ({ newRootScope opts i with
        status := { closed := true, quitSignaled := true } } : scope).reporter =
      some r from hrep]
  · intro name hl
    unfold scope.Counter
    dsimp only
    rw [hl, hcache]

/-- Witness for C10 at a concrete scope with both reporters configured. -/
theorem c10_push_reporter_drives_witness :
    exScopeBoth.Capabilities = exStatsReporter.capabilities ∧
    exScopeBoth.reportRegistryWithLock (exOrders exScopeBoth) =
      exScopeBoth.report (exOrders exScopeBoth) ++ [Event.flushReporter] ∧
    (exScopeBoth.Counter "hits").2.2 =
      [Event.allocateCounter "hits" []] := by
  have h := c10_push_reporter_drives
    { reporter := some exStatsReporter, cachedReporter := some exCachedReporter }
    0 exStatsReporter exCachedReporter (exOrders exScopeBoth) rfl rfl
  exact ⟨h.2.1, h.2.2.1, h.2.2.2.2.2.2.2 "hits" rfl⟩

theorem string_length_eq_zero {s : String} (h : s.length = 0) : s = "" := by
  cases s with
  | mk data =>
    have hd : data = [] := List.length_eq_zero.mp (by simpa [String.length] using h)
    simp [hd]

/-- C7: `fullyQualifiedName` returns the name unchanged when the scope's
prefix is empty and `prefix + separator + name` otherwise, with no further
sanitization; concretely, the subscope "db" of a root with prefix "svc" and
separator "." has prefix "svc.db" and reports counter "queries" under
"svc.db.queries". -/
theorem c7_fully_qualified_name :
    (∀ (s : scope) (n : String), s.pfx = "" → s.fullyQualifiedName n = n) ∧
    (∀ (s : scope) (n : String), s.pfx ≠ "" →
       s.fullyQualifiedName n = s.pfx ++ s.separator ++ n) ∧
    (c7root.SubScope "db").pfx = "svc.db" ∧
    (c7root.SubScope "db").fullyQualifiedName "queries" = "svc.db.queries" := by
  refine ⟨?_, ?_, by decide, by decide⟩
  · intro s n h
    unfold scope.fullyQualifiedName
    rw [h]
    simp
  · intro s n h
    unfold scope.fullyQualifiedName
    rw [if_neg (fun hz => h (string_length_eq_zero hz))]

/-- Witness for C7 at concrete scopes: the plain root (empty prefix) reports
"queries" as-is; the "svc" root joins with its separator. -/
theorem c7_fully_qualified_name_witness :
    exScopePlain.fullyQualifiedName "queries" = "queries" ∧
    c7root.fullyQualifiedName "queries" = "svc" ++ "." ++ "queries" := by
  constructor
  · exact c7_fully_qualified_name.1 exScopePlain "queries" rfl
  · exact c7_fully_qualified_name.2.1 c7root "queries" (by decide)

theorem lookupKey_mapInsert {α β : Type} [DecidableEq α] (m : List (α × β))
    (k : α) (v : β) (k2 : α) :
    lookupKey (mapInsert m k v) k2 = if k = k2 then some v else lookupKey m k2 := by
  induction m with
  | nil => simp [mapInsert, lookupKey]
  | cons p rest ih =>
    by_cases hp : p.1 = k
    · rw [show mapInsert (p :: rest) k v = (k, v) :: rest by simp [mapInsert, hp]]
      by_cases h2 : k = k2
      · simp [lookupKey, h2]
      · simp only [lookupKey, if_neg h2]
        rw [if_neg (fun hpk2 => h2 (hp ▸ hpk2))]
    · rw [show mapInsert (p :: rest) k v = p :: mapInsert rest k v by
        simp [mapInsert, hp]]
      by_cases hpk2 : p.1 = k2
      · have hk2 : ¬(k = k2) := fun h => hp (h ▸ hpk2)
        simp [lookupKey, hpk2, hk2]
      · simp [lookupKey, hpk2, ih]

theorem lookupKey_foldl_mapInsert {α β : Type} [DecidableEq α]
    (l : List (α × β)) (m : List (α × β)) (k : α)
    (hl : (l.map Prod.fst).Nodup) :
    lookupKey (l.foldl (fun acc p => mapInsert acc p.1 p.2) m) k =
      (match lookupKey l k with
       | some v => some v
       | none => lookupKey m k) := by
  induction l generalizing m with
  | nil => simp [lookupKey]
  | cons p rest ih =>
    rw [List.map_cons] at hl
    have hnodup := List.nodup_cons.mp hl
    rw [List.foldl_cons, ih _ hnodup.2]
    by_cases hk : p.1 = k
    · subst hk
      rw [(lookupKey_eq_none_iff rest p.1).mpr hnodup.1]
      simp [lookupKey, lookupKey_mapInsert]
    · rw [show lookupKey (p :: rest) k = lookupKey rest k by simp [lookupKey, hk]]
      cases h : lookupKey rest k with
      | some v => rfl
      | none => simp [lookupKey_mapInsert, hk]

/-- C8: for every pair of unique-keyed tag maps, `mergeRightTags` yields the
mapping whose key set is the union of the inputs' key sets with the right
(child) map winning every key collision; in particular merging
env=prod with env=staging, region=us yields env=staging, region=us. -/
theorem c8_merge_right_tags :
    (∀ (l r : List (String × String)) (k : String),
       (l.map Prod.fst).Nodup → (r.map Prod.fst).Nodup →
       lookupKey (mergeRightTags l r) k =
         (match lookupKey r k with
          | some v => some v
          | none => lookupKey l k)) ∧
    (∀ (l r : List (String × String)) (k : String),
       (l.map Prod.fst).Nodup → (r.map Prod.fst).Nodup →
       (k ∈ (mergeRightTags l r).map Prod.fst ↔
         k ∈ l.map Prod.fst ∨ k ∈ r.map Prod.fst)) ∧
    mergeRightTags [("env", "prod")] [("env", "staging"), ("region", "us")] =
      [("env", "staging"), ("region", "us")] := by
  have hmain : ∀ (l r : List (String × String)) (k : String),
      (l.map Prod.fst).Nodup → (r.map Prod.fst).Nodup →
      lookupKey (mergeRightTags l r) k =
        (match lookupKey r k with
         | some v => some v
         | none => lookupKey l k) := by
    intro l r k hl hr
    unfold mergeRightTags
    by_cases hr0 : r.length = 0
    · have hre : r = [] := List.length_eq_zero.mp hr0
      subst hre
      simp [lookupKey]
    · by_cases hl0 : l.length = 0
      · have hle : l = [] := List.length_eq_zero.mp hl0
        subst hle
        rw [if_neg hr0, if_pos hl0]
        cases h : lookupKey r k <;> simp [lookupKey, h]
      · rw [if_neg hr0, if_neg hl0]
        rw [lookupKey_foldl_mapInsert r _ k hr, lookupKey_foldl_mapInsert l _ k hl]
        cases h1 : lookupKey r k with
        | some v => rfl
        | none => cases h2 : lookupKey l k <;> simp [lookupKey]
  refine ⟨hmain, ?_, by decide⟩
  intro l r k hl hr
  rw [← lookupKey_isSome_iff, ← lookupKey_isSome_iff, ← lookupKey_isSome_iff,
    hmain l r k hl hr]
  cases h1 : lookupKey r k <;> cases h2 : lookupKey l k <;> simp

/-- Witness for C8: in the merged example map, the child's env wins and the
key set is the union. -/
theorem c8_merge_right_tags_witness :
    lookupKey (mergeRightTags [("env", "prod")]
      [("env", "staging"), ("region", "us")]) "env" = some "staging" ∧
    ("region" ∈ (mergeRightTags [("env", "prod")]
      [("env", "staging"), ("region", "us")]).map Prod.fst) := by
  constructor
  · rw [c8_merge_right_tags.1 [("env", "prod")]
      [("env", "staging"), ("region", "us")] "env" (by decide) (by decide)]
    rfl
  · rw [(c8_merge_right_tags.2.1 [("env", "prod")]
      [("env", "staging"), ("region", "us")] "region" (by decide) (by decide))]
    decide

/-- C5 (amended): `report(reporter)` ranges over each kind's lookup *map* in
Go's unspecified map-iteration order — not over the insertion-ordered slice —
invoking each registered counter's, gauge's and histogram's report exactly
once per pass (one invocation per map entry, i.e. a permutation of the
canonical per-entry sweep) with the fully qualified name and the scope's
tags; `cachedReport()` sweeps the insertion-ordered slices, invoking each
instance's cachedReport exactly once in registration order; neither pass
does anything for timers (every emitted event is a counter / gauge /
histogram report event). -/
theorem c5_report_sweep (s : scope) (ords : MapOrders)
    (hord : ords.valid s) (hinv : regInvariant s) :
    List.Perm (s.report ords) (reportCanonical s) ∧
    s.cachedReport = cachedReportCanonical s ∧
    (∀ e ∈ s.report ords, e.isMapSweep = true) ∧
    (∀ e ∈ s.cachedReport, e.isSliceSweep = true) := by
  obtain ⟨hc, hg, hh⟩ := hord
  obtain ⟨h1, h2, h3, h4, h5, h6, h7⟩ := hinv
  refine ⟨?_, ?_, mem_report_isMapSweep s ords, mem_cachedReport_isSliceSweep s⟩
  · unfold scope.report reportCanonical
    exact ((hc.map _).append (hg.map _)).append (hh.map _)
  · unfold scope.cachedReport cachedReportCanonical
    rw [h2, h4, h6, List.map_map, List.map_map, List.map_map]
    rfl

/-- Witness for C5 on the concrete two-counter scope with the identity
iteration order. -/
theorem c5_report_sweep_witness :
    List.Perm (c5scope.report (exOrders c5scope)) (reportCanonical c5scope) ∧
    c5scope.cachedReport = cachedReportCanonical c5scope := by
  have h := c5_report_sweep c5scope (exOrders c5scope)
    ⟨List.Perm.refl _, List.Perm.refl _, List.Perm.refl _⟩ (by decide)
  exact ⟨h.1, h.2.1⟩

/-- C5 counterexample: `report` does not sweep the insertion-ordered
sequence. On a scope holding counters "a" then "b" (in that registration
order), the legal map-iteration order that visits "b" first is a permutation
of the counters map, yet the resulting report invocation sequence differs
from the registration-order sweep — so the order of report invocations is
map-iteration order, not registration order. -/
theorem c5_report_sweep_counterexample :
    MapOrders.valid c5ords c5scope ∧
    c5scope.report c5ords ≠ reportCanonical c5scope := by
  constructor
  · exact ⟨List.Perm.swap ("a", 0) ("b", 1) [], List.Perm.refl _, List.Perm.refl _⟩
  · decide

/-- C4 (code bug): the bucket-cache key is computed from the folded boundary
words alone — the {duration, value} type discriminant is not folded into the
identity — so within one scope a duration histogram over boundary 1ns and a
value histogram over the float64 with bit pattern 1 (the subnormal 5e-324)
collide on the same identity and share one storage object even though their
discriminants differ, contradicting the invariant that storage is shared
only when the discriminants are equal. -/
theorem c4_bucket_cache_ignores_discriminant :
    getBucketsIdentity (Buckets.duration [1]) =
      getBucketsIdentity (Buckets.value [1]) ∧
    (histResult (exScopePlain.Histogram "h1" (some (Buckets.duration [1])))).map
        (fun h => h.storage) =
      (histResult (c4scope1.Histogram "h2" (some (Buckets.value [1])))).map
        (fun h => h.storage) ∧
    (histResult (exScopePlain.Histogram "h1" (some (Buckets.duration [1])))).map
        (fun h => h.htype) = some histogramType.durationHistogramType ∧
    (histResult (c4scope1.Histogram "h2" (some (Buckets.value [1])))).map
        (fun h => h.htype) = some histogramType.valueHistogramType := by
  exact ⟨by decide, by decide, by decide, by decide⟩
